import Mathlib

/-!
Formal model of the text-detection service in `app.py`: request validation,
per-client sliding-window rate limiting, image preprocessing, recognition
output normalization, and the HTTP facade mapping outcomes to responses.
External collaborators (image codecs, the OCR engine binary, the filesystem)
are carried as parameters or data, following the spec's interface boundary.
-/

namespace TextDetection

/-- Constant `MAX_IMAGE_SIZE = 10 * 1024 * 1024` from `app.py` line 28. -/
def MAX_IMAGE_SIZE : ℕ := 10 * 1024 * 1024

/-- Constant `MAX_REQUESTS_PER_MINUTE = 60` from `app.py` line 29. -/
def MAX_REQUESTS_PER_MINUTE : ℕ := 60

/-- Constant `MAX_IMAGE_DIMENSION = 4096` from `app.py` line 31. -/
def MAX_IMAGE_DIMENSION : ℕ := 4096

/-- Constant `ALLOWED_IMAGE_TYPES` from `app.py` line 30 (a Python set
literal; listed here in its literal order, which is also the order this model
uses when joining it into the unsupported-type error message). -/
def ALLOWED_IMAGE_TYPES : List String :=
  ["image/jpeg", "image/png", "image/gif", "image/bmp"]

/-- Python exception values raised inside the pipeline: `valueError msg` for
a `ValueError` (validation failures), `excOther msg` for a plain
`Exception`. -/
inductive PyErr where
  | valueError (msg : String)
  | excOther (msg : String)
deriving DecidableEq, Repr

/-- The `str(e)` message of an exception value. -/
def PyErr.msg : PyErr → String
  | .valueError m => m
  | .excOther m => m

/-- Python single-character `str.split`, as a structural function on the
character list (the source only splits on `';'`, `':'` and `','`); on an
empty input it returns one empty piece, as Python does. -/
def pySplit (sep : Char) : List Char → List (List Char)
  | [] => [[]]
  | c :: rest =>
    let r := pySplit sep rest
    if c = sep then [] :: r
    else (c :: r.headD []) :: r.tail

/-- Python `', '.join(...)` over a list of strings. -/
def pyJoin (sep : String) : List String → String
  | [] => ""
  | [s] => s
  | s :: rest => s ++ sep ++ pyJoin sep rest

/-- Model of `validate_image_data` (`app.py` lines 130-141) on a string
payload; the `isinstance(image_data, str)` branch is vacuous here because the
model types the payload as a string. The media type is extracted as
`image_data.split(';')[0].split(':')[1]` and tested against the allow-set;
the error message joins the set with `', '`. -/
def validate_image_data (image_data : String) : Except PyErr Unit :=
  if image_data = "" then .error (.valueError "No image data provided")
  else if ¬ ("data:image/".data.isPrefixOf image_data.data) then
    .error (.valueError "Invalid image format. Expected base64 encoded image data")
  else
    let image_type :=
      String.mk ((pySplit ':' ((pySplit ';' image_data.data).headD [])).getD 1 [])
    if image_type ∈ ALLOWED_IMAGE_TYPES then .ok ()
    else .error (.valueError
      ("Unsupported image type. Allowed types: " ++ pyJoin ", " ALLOWED_IMAGE_TYPES))

/-- Round a rational to the nearest integer, ties to even (the rounding used
by Python float formatting and by OpenCV when it rounds a smoothed mean to
8 bits). The floor is computed as `q.num / q.den` in Euclidean integer
division so that the definition evaluates inside the kernel. -/
def roundHalfEven (q : ℚ) : ℤ :=
  let f : ℤ := q.num / (q.den : ℤ)
  if q - (f : ℚ) < 1/2 then f
  else if (1 : ℚ)/2 < q - (f : ℚ) then f + 1
  else if f % 2 = 0 then f else f + 1

/-- Model of the Python format spec `:.2f` on a nonnegative rational value:
exactly two digits after the decimal point, rounding ties to even. Python
formats a binary double; on every value this file evaluates, the double is
exact, so the rational rendering agrees with it. -/
def format2f (q : ℚ) : String :=
  toString ((roundHalfEven (q * 100)).toNat / 100) ++ "." ++
    (if (roundHalfEven (q * 100)).toNat % 100 < 10 then "0" else "") ++
    toString ((roundHalfEven (q * 100)).toNat % 100)

/-- Message built at `app.py` line 158: the actual size is formatted with
`:.2f`; the maximum is the Python expression `MAX_IMAGE_SIZE/1024/1024`,
true float division giving `10.0`, which `str` renders as `"10.0"`. -/
def sizeErrorMsg (size : ℕ) : String :=
  "Image size (" ++ format2f ((size : ℚ) / 1024 / 1024) ++
    " MB) too large. Maximum size is 10.0 MB"

/-- Message built at `app.py` line 146 (`MAX_IMAGE_DIMENSION` interpolated). -/
def dimErrorMsg : String :=
  "Image dimensions too large. Maximum dimension is 4096px"

/-- A decoded in-memory image as the validator sees it. `encodedSize` is the
byte count produced by re-encoding the image (`image.save` with the original
format, JPEG fallback, `app.py` lines 149-156); the codec is an external
collaborator, so the model carries its output size as data. -/
structure DecodedImage where
  width : ℕ
  height : ℕ
  encodedSize : ℕ
deriving DecidableEq, Repr

/-- Model of `validate_image_size` (`app.py` lines 143-158): the dimension
check runs first, then the re-encoded byte-size check. -/
def validate_image_size (image : DecodedImage) : Except PyErr Unit :=
  if MAX_IMAGE_DIMENSION < image.width ∨ MAX_IMAGE_DIMENSION < image.height then
    .error (.valueError dimErrorMsg)
  else if MAX_IMAGE_SIZE < image.encodedSize then
    .error (.valueError (sizeErrorMsg image.encodedSize))
  else .ok ()

/-- Characters stripped by Python `str.strip()` with no argument, restricted
to the ASCII range: space, tab, newline, carriage return, vertical tab, form
feed. -/
def isPySpace (c : Char) : Bool :=
  c == ' ' || c == '\t' || c == '\n' || c == '\r' || c == Char.ofNat 11 || c == Char.ofNat 12

/-- Model of Python `str.strip()`: drop leading and trailing whitespace. -/
def pyStrip (s : String) : String :=
  ⟨((s.data.dropWhile isPySpace).reverse.dropWhile isPySpace).reverse⟩

/-- Model of the body of `process_image` (`app.py` lines 167-199) before the
catch-all wrapper: validate the payload, decode it (base64 plus `Image.open`,
abstracted as the `decode` parameter applied to the payload after the first
comma, with any codec failure re-raised as `ValueError`), validate size, then
run the engine (`pytesseract` with its fixed config on the preprocessed
raster, abstracted as `engine`) and normalize its raw text: strip, and
substitute the sentinel when the stripped text is empty. -/
def process_image_inner (decode : String → Except String DecodedImage)
    (engine : DecodedImage → String) (image_data : String) : Except PyErr String :=
  match validate_image_data image_data with
  | .error e => .error e
  | .ok _ =>
    match decode (String.mk ((pySplit ',' image_data.data).getD 1 [])) with
    | .error e => .error (.valueError ("Invalid image data: " ++ e))
    | .ok image =>
      match validate_image_size image with
      | .error e => .error e
      | .ok _ =>
        let text := engine image
        if pyStrip text = "" then .ok "No text detected in the image."
        else .ok (pyStrip text)

/-- Model of `process_image` (`app.py` lines 160-204): the startup guard on
the configured engine command (raised outside the `try`, hence not wrapped),
then the inner body under its catch-all handler, which re-raises every
exception — validation `ValueError` included — as a plain `Exception` whose
message prepends `"Error processing image: "`. -/
def process_image (cmdSet : Bool) (decode : String → Except String DecodedImage)
    (engine : DecodedImage → String) (image_data : String) : Except PyErr String :=
  if ¬ cmdSet then
    .error (.excOther "Tesseract OCR is not configured correctly on the server.")
  else
    match process_image_inner decode engine image_data with
    | .ok t => .ok t
    | .error e => .error (.excOther ("Error processing image: " ++ e.msg))

/-- A JSON-over-HTTP response: status code plus the single key/value pair the
handler emits. -/
structure HttpResponse where
  status : ℕ
  key : String
  value : String
deriving DecidableEq, Repr

/-- The request body as the handler reads it: whether the request parsed as
JSON, and the value of the `image` field (`none` when the field is absent). -/
structure DetectRequest where
  isJson : Bool
  image : Option String
deriving DecidableEq, Repr

/-- Model of the `detect_text` handler (`app.py` lines 208-232): JSON check,
the `if not image_data` check (absent field or empty string alike), then
`process_image`, with `ValueError` mapped to HTTP 400 and any other exception
to HTTP 500, each response carrying `str(e)` under the `error` key. -/
def detect_text (cmdSet : Bool) (decode : String → Except String DecodedImage)
    (engine : DecodedImage → String) (req : DetectRequest) : HttpResponse :=
  if ¬ req.isJson then ⟨400, "error", "Request must be JSON"⟩
  else
    match req.image with
    | none => ⟨400, "error", "No image data provided"⟩
    | some s =>
      if s = "" then ⟨400, "error", "No image data provided"⟩
      else
        match process_image cmdSet decode engine s with
        | .ok t => ⟨200, "text", t⟩
        | .error (.valueError m) => ⟨400, "error", m⟩
        | .error (.excOther m) => ⟨500, "error", m⟩

/-- The health response body (`app.py` lines 244-248). -/
structure HealthBody where
  status : String
  tesseract_status : String
  version : String
deriving DecidableEq, Repr

/-- Engine-resolution state as `health_check` observes it: the value of
`pytesseract.pytesseract.tesseract_cmd` when that attribute exists (`none`
models a missing attribute; Python truthiness makes `some ""` behave as
unset), and whether the Render fallback binary is visible (`RENDER` env var
set and `/usr/bin/tesseract` on disk — filesystem state carried as data). -/
structure EngineState where
  cmd : Option String
  renderTesseract : Bool
deriving DecidableEq, Repr

/-- Whether the engine command is resolved: attribute present and truthy. -/
def EngineState.resolved (st : EngineState) : Bool :=
  match st.cmd with
  | some c => c != ""
  | none => false

/-- Model of `health_check` (`app.py` lines 234-248): always HTTP 200 with
status `healthy` and version `1.0.0`; the `tesseract_status` string is chosen
by the resolution state without invoking the engine. -/
def health_check (st : EngineState) : ℕ × HealthBody :=
  let ts :=
    match st.cmd with
    | some c =>
      if c ≠ "" then "Configured at " ++ c
      else if st.renderTesseract then "Expected at /usr/bin/tesseract (Render)"
      else "Not found or configured."
    | none =>
      if st.renderTesseract then "Expected at /usr/bin/tesseract (Render)"
      else "Not found or configured."
  (200, ⟨"healthy", ts, "1.0.0"⟩)

/-- One admission step of the `rate_limit` decorator (`app.py` lines 51-63)
on a single client entry: prune timestamps older than `now - 60` and store
the pruned list, deny when 60 or more remain (without recording the attempt),
otherwise append `now` and allow. Timestamps are rationals standing for the
`time.time()` wall clock. -/
def rate_limit_step (now : ℚ) (ts : List ℚ) : Bool × List ℚ :=
  let pruned := ts.filter (fun t => now - t < 60)
  if MAX_REQUESTS_PER_MINUTE ≤ pruned.length then (false, pruned)
  else (true, pruned ++ [now])

/-- Run the admission step over a sequence of call times for one client,
returning the per-call decisions and the final stored entry. -/
def rate_limit_run (ts : List ℚ) : List ℚ → List Bool × List ℚ
  | [] => ([], ts)
  | c :: rest =>
    let step := rate_limit_step c ts
    let next := rate_limit_run step.2 rest
    (step.1 :: next.1, next.2)

/-- A single-channel raster: width, height, and the pixel value at each
coordinate (meaningful for `x < w`, `y < h`). -/
structure GrayImage where
  w : ℕ
  h : ℕ
  pix : ℕ → ℕ → ℕ

/-- Pixel access with replicated border (OpenCV `BORDER_REPLICATE`, the
border mode `adaptiveThreshold` smooths with): coordinates are clamped into
the raster. -/
def GrayImage.borderPix (img : GrayImage) (x y : ℤ) : ℕ :=
  img.pix (min (max x 0) ((img.w : ℤ) - 1)).toNat (min (max y 0) ((img.h : ℤ) - 1)).toNat

/-- The 11×11 offset window of a `blockSize = 11` adaptive threshold. -/
def window : Finset (ℤ × ℤ) := Finset.Icc (-5 : ℤ) 5 ×ˢ Finset.Icc (-5 : ℤ) 5

/-- A valid 11×11 smoothing kernel: positive weights on the window summing to
one. The `ADAPTIVE_THRESH_GAUSSIAN_C` kernel (OpenCV `getGaussianKernel` with
`ksize = 11`, hence `sigma = 2.0`, outer-multiplied with itself) is one such
kernel; its weights are transcendental values of `exp`, so the statements
below quantify over every valid kernel instead of fixing one rational
approximation. -/
def KernelOK (K : ℤ × ℤ → ℚ) : Prop :=
  (∀ p ∈ window, 0 < K p) ∧ ∑ p ∈ window, K p = 1

/-- The weighted local mean at a pixel, as `adaptiveThreshold` computes it
into an 8-bit mean matrix: the kernel-weighted average over the 11×11
replicated-border neighborhood, rounded to the nearest integer. -/
def localMean (K : ℤ × ℤ → ℚ) (img : GrayImage) (x y : ℕ) : ℤ :=
  roundHalfEven (∑ p ∈ window, K p * (img.borderPix ((x : ℤ) + p.1) ((y : ℤ) + p.2) : ℚ))

/-- One output pixel of `cv2.adaptiveThreshold(gray, 255,
ADAPTIVE_THRESH_GAUSSIAN_C, THRESH_BINARY, 11, 2)` (`app.py` lines 187-190):
255 where the source pixel exceeds the local mean minus the bias 2, else 0. -/
def threshPix (K : ℤ × ℤ → ℚ) (img : GrayImage) (x y : ℕ) : ℕ :=
  if localMean K img x y - 2 < (img.pix x y : ℤ) then 255 else 0

/-- Model of the `adaptiveThreshold` call at `app.py` lines 187-190. -/
def adaptiveThreshold (K : ℤ × ℤ → ℚ) (img : GrayImage) : GrayImage :=
  ⟨img.w, img.h, fun x y => threshPix K img x y⟩

/-- Fixed-point luma of OpenCV `COLOR_BGR2GRAY` (`app.py` line 184), the
standard transform `0.299 R + 0.587 G + 0.114 B` in 14-bit fixed point:
`(4899 R + 9617 G + 1868 B + 2^13) >> 14`. -/
def luma (r g b : ℕ) : ℕ := (4899 * r + 9617 * g + 1868 * b + 8192) / 16384

/-- The preprocessing transform of `process_image` (`app.py` lines 181-190)
applied to a single-channel raster: such a raster enters the pipeline with
all three channels equal (`COLOR_RGB2BGR` only permutes channels), grayscale
conversion maps each pixel through `luma v v v`, and adaptive thresholding
binarizes the result. -/
def preprocess (K : ℤ × ℤ → ℚ) (img : GrayImage) : GrayImage :=
  adaptiveThreshold K
    ⟨img.w, img.h, fun x y => luma (img.pix x y) (img.pix x y) (img.pix x y)⟩

/-- A raster is binary when every in-range pixel is 0 or 255. -/
def IsBinary (img : GrayImage) : Prop :=
  ∀ x < img.w, ∀ y < img.h, img.pix x y = 0 ∨ img.pix x y = 255

/-- Two rasters agree: same dimensions and equal pixels at every in-range
coordinate. -/
def ImgEq (a b : GrayImage) : Prop :=
  a.w = b.w ∧ a.h = b.h ∧ ∀ x < a.w, ∀ y < a.h, a.pix x y = b.pix x y

/-- The uniform kernel on the 11×11 window, one concrete valid kernel, used
to instantiate kernel-generic statements. -/
def uniformK : ℤ × ℤ → ℚ := fun _ => 1/121

/-- An all-black raster of the given dimensions. -/
def blackImage (w h : ℕ) : GrayImage := ⟨w, h, fun _ _ => 0⟩

/-- An all-white raster of the given dimensions. -/
def whiteImage (w h : ℕ) : GrayImage := ⟨w, h, fun _ _ => 255⟩

/-- A well-formed request payload used to exercise the success path. -/
def okPayload : String := "data:image/png;base64,AAAA"

/-- A decoder standing for a codec that decodes `okPayload` into a small
in-bounds raster. -/
def okDecode : String → Except String DecodedImage := fun _ => .ok ⟨200, 50, 1000⟩

/-- The size-error message as the spec words it: both the actual size and the
maximum rendered with two-decimal MiB precision. Stated only to compare with
`sizeErrorMsg`, the message the source builds. -/
def sizeErrorMsgSpec (size : ℕ) : String :=
  "Image size (" ++ format2f ((size : ℚ) / 1024 / 1024) ++
    " MB) too large. Maximum size is " ++
    format2f ((MAX_IMAGE_SIZE : ℚ) / 1024 / 1024) ++ " MB"

/-!  Theorems.  -/

/-- Claim C8: for every JSON request body in which the `image` field is
absent, the detect-text endpoint returns HTTP 400 with an error message
mentioning the absence of image data; the response is the same for every
decoder and engine, so no decoding, preprocessing or recognition runs. -/
theorem detect_text_missing_image (cmdSet : Bool)
    (decode : String → Except String DecodedImage) (engine : DecodedImage → String) :
    detect_text cmdSet decode engine ⟨true, none⟩ =
      ⟨400, "error", "No image data provided"⟩ :=
  rfl

/-- Claim C10: a present-but-empty `image` field is treated identically to an
absent one — HTTP 400 with the message `No image data provided` — for every
decoder and engine. -/
theorem detect_text_empty_image (cmdSet : Bool)
    (decode : String → Except String DecodedImage) (engine : DecodedImage → String) :
    detect_text cmdSet decode engine ⟨true, some ""⟩ =
        detect_text cmdSet decode engine ⟨true, none⟩ ∧
      detect_text cmdSet decode engine ⟨true, some ""⟩ =
        ⟨400, "error", "No image data provided"⟩ :=
  ⟨rfl, rfl⟩

/-- Claim C1 (failing input): a payload with an unrecognized prefix raises a
validation `ValueError` inside the pipeline, but `process_image` re-raises it
as a plain `Exception`, so the endpoint answers HTTP 500 with the wrapped
message — not HTTP 400 with the precise validation message as claimed. -/
theorem detect_text_validation_error_gets_500
    (decode : String → Except String DecodedImage) (engine : DecodedImage → String) :
    detect_text true decode engine ⟨true, some "notanimage"⟩ =
      ⟨500, "error",
        "Error processing image: Invalid image format. Expected base64 encoded image data"⟩ :=
  rfl

/-- Claim C4 (failing input): a payload declaring the disallowed media type
`image/tiff` raises the unsupported-type `ValueError` whose message does
enumerate the allow-set, but the catch-all in `process_image` re-raises it as
a plain `Exception`, so the endpoint answers HTTP 500 with the wrapped
message — not HTTP 400 as claimed. -/
theorem detect_text_unsupported_type_gets_500
    (decode : String → Except String DecodedImage) (engine : DecodedImage → String) :
    detect_text true decode engine ⟨true, some "data:image/tiff;base64,AAAA"⟩ =
      ⟨500, "error",
        "Error processing image: Unsupported image type. Allowed types: image/jpeg, image/png, image/gif, image/bmp"⟩ :=
  rfl

/-- A string beginning with `Configured at ` differs from every string whose
first character is not `C`. -/
theorem configured_at_ne (c s : String) (hs : s.data.head? ≠ some 'C') :
    "Configured at " ++ c ≠ s :=
  fun h => hs (by subst h; rfl)

/-- Claim C7: the health endpoint always returns HTTP 200 with status
`healthy` and a version string, and its `tesseract_status` field truthfully
reflects the engine state: it reads `Configured at <path>` exactly when the
engine command is resolved, and otherwise is one of the two unresolved
reports, chosen by the Render fallback visibility. -/
theorem health_check_contract (st : EngineState) :
    (health_check st).1 = 200 ∧
      (health_check st).2.status = "healthy" ∧
      (health_check st).2.version = "1.0.0" ∧
      ((∃ c, st.cmd = some c ∧ c ≠ "" ∧
          (health_check st).2.tesseract_status = "Configured at " ++ c) ↔
        st.resolved = true) ∧
      (((health_check st).2.tesseract_status =
            (if st.renderTesseract then "Expected at /usr/bin/tesseract (Render)"
              else "Not found or configured.")) ↔
        st.resolved = false) := by
  obtain ⟨cmd, rt⟩ := st
  cases cmd with
  | none =>
    refine ⟨rfl, rfl, rfl, ?_, ?_⟩
    · simp [EngineState.resolved, health_check]
    · simp [EngineState.resolved, health_check]
  | some c =>
    by_cases hc : c = ""
    · subst hc
      refine ⟨rfl, rfl, rfl, ?_, ?_⟩
      · simp [EngineState.resolved, health_check]
      · simp [EngineState.resolved, health_check]
    · have hts : (health_check ⟨some c, rt⟩).2.tesseract_status = "Configured at " ++ c := by
        simp [health_check, hc]
      refine ⟨rfl, rfl, rfl, ?_, ?_⟩
      · simp [EngineState.resolved, hc, hts]
      · rw [hts]
        constructor
        · intro h
          exfalso
          cases rt
          · simp only [Bool.false_eq_true, if_false] at h
            exact configured_at_ne c _ (by decide) h
          · simp only [if_true] at h
            exact configured_at_ne c _ (by decide) h
        · intro h
          simp [EngineState.resolved, hc] at h

/-- Claim C5: for every raw engine output, once admission and validation
pass, the endpoint answers HTTP 200 whose text is the raw output with
leading and trailing whitespace stripped, or the literal sentinel
`No text detected in the image.` — a success, not an error — when the
stripped output is empty. -/
theorem detect_text_normalizes_engine_output
    (decode : String → Except String DecodedImage) (engine : DecodedImage → String)
    (s : String) (img : DecodedImage)
    (h0 : ¬ s = "")
    (h1 : validate_image_data s = .ok ())
    (h2 : decode (String.mk ((pySplit ',' s.data).getD 1 [])) = .ok img)
    (h3 : validate_image_size img = .ok ()) :
    detect_text true decode engine ⟨true, some s⟩ =
      ⟨200, "text",
        if pyStrip (engine img) = "" then "No text detected in the image."
        else pyStrip (engine img)⟩ := by
  have hinner : process_image_inner decode engine s =
      .ok (if pyStrip (engine img) = "" then "No text detected in the image."
        else pyStrip (engine img)) := by
    simp only [process_image_inner, h1, h2, h3]
    split <;> rfl
  simp only [detect_text, process_image, hinner, if_neg h0]
  rfl

/-- Witness for claim C5: at a concrete well-formed request whose engine
returns padded text, the endpoint answers 200 with the stripped text. -/
theorem detect_text_normalizes_engine_output_witness :
    (¬ okPayload = "" ∧
      validate_image_data okPayload = .ok () ∧
      okDecode (String.mk ((pySplit ',' okPayload.data).getD 1 [])) =
        .ok ⟨200, 50, 1000⟩ ∧
      validate_image_size ⟨200, 50, 1000⟩ = .ok ()) ∧
    detect_text true okDecode (fun _ => " hi" ++ "\n") ⟨true, some okPayload⟩ =
      ⟨200, "text", "hi"⟩ := by
  refine ⟨⟨by decide, rfl, rfl, rfl⟩, ?_⟩
  have h := detect_text_normalizes_engine_output okDecode (fun _ => " hi" ++ "\n")
    okPayload ⟨200, 50, 1000⟩ (by decide) rfl rfl rfl
  rw [h]
  rfl

/-- The rounding of an integer-valued rational is that integer. -/
theorem roundHalfEven_intCast (n : ℤ) : roundHalfEven ((n : ℚ)) = n := by
  simp only [roundHalfEven, Rat.num_intCast, Rat.den_intCast]
  norm_num

/-- Claim C6 (counterexample): at a 100×100 image whose re-encoding is 11 MiB
the validator does fail, but its message renders the maximum as `10.0 MB` —
the Python `str` of the float `MAX_IMAGE_SIZE/1024/1024` — not with the
two-decimal precision the claim asserts for both numbers, as comparison with
the spec-worded message shows. -/
theorem validate_image_size_msg_cex :
    validate_image_size ⟨100, 100, 11534336⟩ =
      .error (.valueError "Image size (11.00 MB) too large. Maximum size is 10.0 MB") ∧
    sizeErrorMsg 11534336 ≠ sizeErrorMsgSpec 11534336 := by
  have hfmt : format2f (((11534336 : ℕ) : ℚ) / 1024 / 1024) = "11.00" := by
    have h1 : ((11534336 : ℕ) : ℚ) / 1024 / 1024 * 100 = ((1100 : ℤ) : ℚ) := by norm_num
    unfold format2f
    rw [h1, roundHalfEven_intCast]
    decide
  have hfmtMax : format2f (((MAX_IMAGE_SIZE : ℕ) : ℚ) / 1024 / 1024) = "10.00" := by
    have h1 : ((MAX_IMAGE_SIZE : ℕ) : ℚ) / 1024 / 1024 * 100 = ((1000 : ℤ) : ℚ) := by
      norm_num [MAX_IMAGE_SIZE]
    unfold format2f
    rw [h1, roundHalfEven_intCast]
    decide
  constructor
  · unfold validate_image_size
    rw [if_neg (by decide), if_pos (by decide)]
    unfold sizeErrorMsg
    rw [hfmt]
    rfl
  · unfold sizeErrorMsg sizeErrorMsgSpec
    rw [hfmt, hfmtMax]
    decide

/-- Claim C6 (amended): for every decoded image passing the dimension check
whose re-encoded size exceeds 10 MiB, validation fails with a size error
whose message reports the actual size with two-decimal MiB precision and the
maximum as `10.0` (Python float rendering, one decimal). -/
theorem validate_image_size_too_large (img : DecodedImage)
    (hw : img.width ≤ MAX_IMAGE_DIMENSION) (hh : img.height ≤ MAX_IMAGE_DIMENSION)
    (hs : MAX_IMAGE_SIZE < img.encodedSize) :
    validate_image_size img =
      .error (.valueError
        ("Image size (" ++ format2f ((img.encodedSize : ℚ) / 1024 / 1024) ++
          " MB) too large. Maximum size is 10.0 MB")) := by
  unfold validate_image_size
  rw [if_neg (by push_neg; exact ⟨hw, hh⟩), if_pos hs]
  rfl

/-- Witness for claim C6 (amended) at the 11 MiB input. -/
theorem validate_image_size_too_large_witness :
    ((100 : ℕ) ≤ MAX_IMAGE_DIMENSION ∧ (100 : ℕ) ≤ MAX_IMAGE_DIMENSION ∧
      MAX_IMAGE_SIZE < 11534336) ∧
    validate_image_size ⟨100, 100, 11534336⟩ =
      .error (.valueError
        ("Image size (" ++ format2f ((11534336 : ℚ) / 1024 / 1024) ++
          " MB) too large. Maximum size is 10.0 MB")) :=
  ⟨⟨by decide, by decide, by decide⟩,
    validate_image_size_too_large ⟨100, 100, 11534336⟩ (by decide) (by decide) (by decide)⟩

/-- Pruning is the identity on a client entry whose timestamps all lie within
the window of `now`. -/
theorem filter_window_id (now : ℚ) (ts : List ℚ)
    (h : ∀ t ∈ ts, now - t < 60) : ts.filter (fun t => now - t < 60) = ts :=
  List.filter_eq_self.mpr (fun t ht => by simpa using h t ht)

/-- While every stored and arriving timestamp lies within the window of every
remaining call and capacity is never reached, every call is allowed and the
final entry is the starting entry with the calls appended in order. -/
theorem rate_limit_run_all_allowed (cs : List ℚ) (s : List ℚ)
    (hlen : s.length + cs.length ≤ 60)
    (hs : ∀ c ∈ cs, ∀ t ∈ s, c - t < 60)
    (hcs : ∀ c ∈ cs, ∀ c2 ∈ cs, c - c2 < 60) :
    rate_limit_run s cs = (List.replicate cs.length true, s ++ cs) := by
  induction cs generalizing s with
  | nil => simp [rate_limit_run]
  | cons c rest ih =>
    have hpr : s.filter (fun t => c - t < 60) = s :=
      filter_window_id c s (fun t ht => hs c (by simp) t ht)
    have hlt : ¬ MAX_REQUESTS_PER_MINUTE ≤ s.length := by
      simp only [List.length_cons, MAX_REQUESTS_PER_MINUTE] at hlen ⊢
      omega
    have hstep : rate_limit_step c s = (true, s ++ [c]) := by
      simp [rate_limit_step, hpr, hlt]
    have hrest : rate_limit_run (s ++ [c]) rest =
        (List.replicate rest.length true, (s ++ [c]) ++ rest) := by
      refine ih (s ++ [c]) ?_ ?_ ?_
      · simp only [List.length_append, List.length_cons, List.length_nil] at hlen ⊢
        omega
      · intro c2 hc2 t ht
        rcases List.mem_append.mp ht with h | h
        · exact hs c2 (List.mem_cons_of_mem _ hc2) t h
        · have ht2 : t = c := by simpa using h
          rw [ht2]
          exact hcs c2 (List.mem_cons_of_mem _ hc2) c (List.mem_cons_self _ _)
      · intro c1 h1 c2 h2
        exact hcs c1 (List.mem_cons_of_mem _ h1) c2 (List.mem_cons_of_mem _ h2)
    simp [rate_limit_run, hstep, hrest, List.replicate_succ]

/-- Running the limiter over concatenated call sequences composes. -/
theorem rate_limit_run_append (s : List ℚ) (as bs : List ℚ) :
    rate_limit_run s (as ++ bs) =
      ((rate_limit_run s as).1 ++ (rate_limit_run (rate_limit_run s as).2 bs).1,
        (rate_limit_run (rate_limit_run s as).2 bs).2) := by
  induction as generalizing s with
  | nil => simp [rate_limit_run]
  | cons a rest ih => simp [rate_limit_run, ih]

/-- Claim C2: a fresh client issuing 60 calls inside one 60-second window has
them all allowed; a 61st call still within the window of all of them is
denied, and the denial records nothing; a later call made at least 60 seconds
after every earlier one is allowed again. -/
theorem rate_limit_window_behavior (cs : List ℚ) (c61 cLater : ℚ)
    (hlen : cs.length = 60)
    (hwin : ∀ a ∈ cs ++ [c61], ∀ b ∈ cs ++ [c61], a - b < 60)
    (hgap : ∀ t ∈ cs ++ [c61], 60 ≤ cLater - t) :
    rate_limit_run [] (cs ++ [c61, cLater]) =
      (List.replicate 60 true ++ [false, true], [cLater]) := by
  have h1 : rate_limit_run [] cs = (List.replicate 60 true, cs) := by
    have h := rate_limit_run_all_allowed cs [] (by simp [hlen]) (by intro c _ t ht; simp at ht)
      (fun a ha b hb =>
        hwin a (List.mem_append_left _ ha) b (List.mem_append_left _ hb))
    simpa [hlen] using h
  have hpr2 : cs.filter (fun t => c61 - t < 60) = cs :=
    filter_window_id c61 cs (fun t ht =>
      hwin c61 (List.mem_append_right _ (List.mem_singleton_self _)) t
        (List.mem_append_left _ ht))
  have h2 : rate_limit_step c61 cs = (false, cs) := by
    simp [rate_limit_step, hpr2, hlen, MAX_REQUESTS_PER_MINUTE]
  have hpr3 : cs.filter (fun t => cLater - t < 60) = [] := by
    rw [List.filter_eq_nil_iff]
    intro t ht
    simpa using not_lt.mpr (hgap t (List.mem_append_left _ ht))
  have h3 : rate_limit_step cLater cs = (true, [cLater]) := by
    simp [rate_limit_step, hpr3, MAX_REQUESTS_PER_MINUTE]
  rw [rate_limit_run_append, h1]
  simp [rate_limit_run, h2, h3]

/-- Witness for claim C2: sixty calls at time 0, a 61st call also at time 0,
and a final call at time 60, once the window has elapsed. -/
theorem rate_limit_window_behavior_witness :
    ((List.replicate 60 (0 : ℚ)).length = 60 ∧
      (∀ a ∈ List.replicate 60 (0 : ℚ) ++ [0], ∀ b ∈ List.replicate 60 (0 : ℚ) ++ [0],
        a - b < 60) ∧
      (∀ t ∈ List.replicate 60 (0 : ℚ) ++ [0], 60 ≤ (60 : ℚ) - t)) ∧
    rate_limit_run [] (List.replicate 60 (0 : ℚ) ++ [0, 60]) =
      (List.replicate 60 true ++ [false, true], [60]) := by
  have hl : (List.replicate 60 (0 : ℚ)).length = 60 := by simp
  have hw : ∀ a ∈ List.replicate 60 (0 : ℚ) ++ [0], ∀ b ∈ List.replicate 60 (0 : ℚ) ++ [0],
      a - b < 60 := by
    intro a ha b hb
    have ha0 : a = 0 := by
      rcases List.mem_append.mp ha with h | h
      · exact (List.eq_of_mem_replicate h)
      · simpa using h
    have hb0 : b = 0 := by
      rcases List.mem_append.mp hb with h | h
      · exact (List.eq_of_mem_replicate h)
      · simpa using h
    rw [ha0, hb0]
    norm_num
  have hg : ∀ t ∈ List.replicate 60 (0 : ℚ) ++ [0], 60 ≤ (60 : ℚ) - t := by
    intro t ht
    have ht0 : t = 0 := by
      rcases List.mem_append.mp ht with h | h
      · exact (List.eq_of_mem_replicate h)
      · simpa using h
    rw [ht0]
    norm_num
  exact ⟨⟨hl, hw, hg⟩, rate_limit_window_behavior _ _ _ hl hw hg⟩

/-- Claim C9: if a client entry satisfies the limiter invariant on entry
(at most 60 stored timestamps, none in the future of the call), then after
one admission step — allowed or denied — the entry holds at most 60
timestamps and every one of them is within 60 seconds of the call time. -/
theorem rate_limit_state_invariant (s : List ℚ) (now : ℚ)
    (hlen : s.length ≤ 60)
    (hpast : ∀ t ∈ s, t ≤ now) :
    (rate_limit_step now s).2.length ≤ 60 ∧
      ∀ t ∈ (rate_limit_step now s).2, 0 ≤ now - t ∧ now - t < 60 := by
  unfold rate_limit_step
  have hsub : ∀ t ∈ s.filter (fun t => now - t < 60), t ∈ s ∧ now - t < 60 := by
    intro t ht
    rw [List.mem_filter] at ht
    exact ⟨ht.1, by simpa using ht.2⟩
  have hplen : (s.filter (fun t => now - t < 60)).length ≤ s.length :=
    List.length_filter_le _ _
  by_cases hc : MAX_REQUESTS_PER_MINUTE ≤ (s.filter (fun t => now - t < 60)).length
  · rw [if_pos hc]
    refine ⟨le_trans hplen hlen, ?_⟩
    intro t ht
    obtain ⟨hts, hlt⟩ := hsub t ht
    exact ⟨by linarith [hpast t hts], hlt⟩
  · rw [if_neg hc]
    constructor
    · simp only [List.length_append, List.length_singleton]
      simp only [MAX_REQUESTS_PER_MINUTE] at hc
      omega
    · intro t ht
      rcases List.mem_append.mp ht with h | h
      · obtain ⟨hts, hlt⟩ := hsub t h
        exact ⟨by linarith [hpast t hts], hlt⟩
      · have : t = now := by simpa using h
        subst this
        norm_num

/-- Witness for claim C9: one stored timestamp at 0, a call at 30. -/
theorem rate_limit_state_invariant_witness :
    (([(0 : ℚ)]).length ≤ 60 ∧ (∀ t ∈ [(0 : ℚ)], t ≤ (30 : ℚ))) ∧
    ((rate_limit_step 30 [(0 : ℚ)]).2.length ≤ 60 ∧
      ∀ t ∈ (rate_limit_step 30 [(0 : ℚ)]).2, 0 ≤ (30 : ℚ) - t ∧ (30 : ℚ) - t < 60) := by
  have h1 : ([(0 : ℚ)]).length ≤ 60 := by simp
  have h2 : ∀ t ∈ [(0 : ℚ)], t ≤ (30 : ℚ) := by
    intro t ht
    have : t = 0 := by simpa using ht
    rw [this]
    norm_num
  exact ⟨⟨h1, h2⟩, rate_limit_state_invariant [(0 : ℚ)] 30 h1 h2⟩

theorem adaptiveThreshold_pix (K : ℤ × ℤ → ℚ) (img : GrayImage) (x y : ℕ) :
    (adaptiveThreshold K img).pix x y = threshPix K img x y := rfl

/-- Grayscale conversion is the identity on equal channels: the fixed-point
luma of `(v, v, v)` is `v`. -/
theorem luma_id (v : ℕ) : luma v v v = v := by
  unfold luma
  have h : 4899 * v + 9617 * v + 1868 * v + 8192 = 16384 * v + 8192 := by ring
  rw [h, Nat.mul_add_div (by norm_num)]
  norm_num

/-- On a single-channel raster the preprocessing transform is exactly the
adaptive threshold, because grayscale conversion reproduces the raster. -/
theorem preprocess_eq_threshold (K : ℤ × ℤ → ℚ) (img : GrayImage) :
    preprocess K img = adaptiveThreshold K img := by
  unfold preprocess
  have h : (fun x y => luma (img.pix x y) (img.pix x y) (img.pix x y)) = img.pix := by
    funext x y
    exact luma_id (img.pix x y)
  rw [h]

/-- The rounding of a rational bounded by an integer is bounded by that
integer. -/
theorem roundHalfEven_le {q : ℚ} {n : ℤ} (h : q ≤ (n : ℚ)) : roundHalfEven q ≤ n := by
  simp only [roundHalfEven]
  rw [← Rat.floor_def]
  have hfl : ⌊q⌋ ≤ n := by
    have := Int.floor_le_floor h
    simpa using this
  split_ifs with h1 h2 h3
  · exact hfl
  · have key : (1 : ℚ)/2 ≤ q - (⌊q⌋ : ℚ) := not_lt.mp h1
    have hq : (⌊q⌋ : ℚ) + 1/2 ≤ q := by linarith
    have hlt : (⌊q⌋ : ℚ) < (n : ℚ) := by linarith
    have : ⌊q⌋ < n := by exact_mod_cast hlt
    omega
  · exact hfl
  · have key : (1 : ℚ)/2 ≤ q - (⌊q⌋ : ℚ) := not_lt.mp h1
    have hq : (⌊q⌋ : ℚ) + 1/2 ≤ q := by linarith
    have hlt : (⌊q⌋ : ℚ) < (n : ℚ) := by linarith
    have : ⌊q⌋ < n := by exact_mod_cast hlt
    omega

/-- A replicated-border read of a nonempty raster lands on an in-range
pixel. -/
theorem borderPix_mem (img : GrayImage) (hw : 0 < img.w) (hh : 0 < img.h)
    (x y : ℤ) : ∃ a, a < img.w ∧ ∃ b, b < img.h ∧ img.borderPix x y = img.pix a b := by
  refine ⟨(min (max x 0) ((img.w : ℤ) - 1)).toNat, ?_,
    (min (max y 0) ((img.h : ℤ) - 1)).toNat, ?_, rfl⟩
  · have h1 : min (max x 0) ((img.w : ℤ) - 1) ≤ (img.w : ℤ) - 1 := min_le_right _ _
    omega
  · have h1 : min (max y 0) ((img.h : ℤ) - 1) ≤ (img.h : ℤ) - 1 := min_le_right _ _
    omega

/-- The rounded local mean of a raster whose in-range pixels are at most 255
is at most 255, for any valid kernel. -/
theorem localMean_le (K : ℤ × ℤ → ℚ) (hK : KernelOK K) (img : GrayImage)
    (hpix : ∀ a < img.w, ∀ b < img.h, img.pix a b ≤ 255)
    (hw : 0 < img.w) (hh : 0 < img.h) (x y : ℕ) :
    localMean K img x y ≤ 255 := by
  unfold localMean
  apply roundHalfEven_le
  push_cast
  calc ∑ p ∈ window, K p * (img.borderPix ((x : ℤ) + p.1) ((y : ℤ) + p.2) : ℚ)
      ≤ ∑ p ∈ window, K p * 255 := by
        apply Finset.sum_le_sum
        intro p hp
        obtain ⟨a, ha, b, hb, heq⟩ := borderPix_mem img hw hh ((x : ℤ) + p.1) ((y : ℤ) + p.2)
        have hle : img.borderPix ((x : ℤ) + p.1) ((y : ℤ) + p.2) ≤ 255 := by
          rw [heq]
          exact hpix a ha b hb
        exact mul_le_mul_of_nonneg_left (by exact_mod_cast hle) (le_of_lt (hK.1 p hp))
    _ = 255 := by rw [← Finset.sum_mul, hK.2, one_mul]

/-- The rounded local mean of the all-black raster is zero, for any
kernel. -/
theorem localMean_black (K : ℤ × ℤ → ℚ) (w h x y : ℕ) :
    localMean K (blackImage w h) x y = 0 := by
  unfold localMean
  have hz : ∑ p ∈ window,
      K p * ((blackImage w h).borderPix ((x : ℤ) + p.1) ((y : ℤ) + p.2) : ℚ) = 0 := by
    apply Finset.sum_eq_zero
    intro p _
    simp [blackImage, GrayImage.borderPix]
  rw [hz]
  simpa using roundHalfEven_intCast 0

/-- Adaptive thresholding turns the all-black raster all-white: at every
coordinate the source value 0 exceeds the local mean 0 minus the bias 2. -/
theorem adaptiveThreshold_black (K : ℤ × ℤ → ℚ) (w h x y : ℕ) :
    (adaptiveThreshold K (blackImage w h)).pix x y = 255 := by
  rw [adaptiveThreshold_pix]
  unfold threshPix
  rw [localMean_black]
  norm_num [blackImage]

/-- The uniform kernel is a valid kernel. -/
theorem uniformK_ok : KernelOK uniformK := by
  constructor
  · intro p _
    norm_num [uniformK]
  · have hcard : window.card = 121 := by
      rw [window, Finset.card_product, Int.card_Icc]
      rfl
    simp only [uniformK]
    rw [Finset.sum_const, hcard, nsmul_eq_mul]
    norm_num

/-- The 1×1 all-black raster is binary. -/
theorem blackImage_binary : IsBinary (blackImage 1 1) := by
  intro x _ y _
  left
  rfl

/-- The 1×1 all-white raster is binary. -/
theorem whiteImage_binary : IsBinary (whiteImage 1 1) := by
  intro x _ y _
  right
  rfl

/-- Claim C3 (counterexample): the preprocessing transform is not idempotent
on every already-binary single-channel raster: for any valid kernel the
all-black raster is binary, yet the transform maps it to the all-white
raster, because each black pixel exceeds its local mean 0 minus the bias 2.
Instantiated at the uniform kernel and the 1×1 black raster. -/
theorem preprocess_not_idempotent_cex :
    ¬ (∀ K, KernelOK K → ∀ img, IsBinary img → ImgEq (preprocess K img) img) := by
  intro hclaim
  obtain ⟨-, -, hpix⟩ := hclaim uniformK uniformK_ok (blackImage 1 1) blackImage_binary
  have h00 := hpix 0 (by decide) 0 (by decide)
  have h255 : (preprocess uniformK (blackImage 1 1)).pix 0 0 = 255 := by
    rw [preprocess_eq_threshold]
    exact adaptiveThreshold_black uniformK 1 1 0 0
  rw [h255] at h00
  exact absurd h00 (by norm_num [blackImage])

/-- Claim C3 (amended): for every valid kernel and every already-binary
single-channel raster, the transform preserves every white pixel, and it
reproduces the raster exactly if and only if every black pixel's rounded
local weighted mean is at least the bias 2 — a condition the all-black
raster violates. -/
theorem preprocess_binary_characterization (K : ℤ × ℤ → ℚ) (hK : KernelOK K)
    (img : GrayImage) (hbin : IsBinary img) :
    (∀ x < img.w, ∀ y < img.h, img.pix x y = 255 →
      (preprocess K img).pix x y = 255) ∧
    (ImgEq (preprocess K img) img ↔
      ∀ x < img.w, ∀ y < img.h, img.pix x y = 0 → 2 ≤ localMean K img x y) := by
  have hb255 : ∀ a < img.w, ∀ b < img.h, img.pix a b ≤ 255 := by
    intro a ha b hb
    rcases hbin a ha b hb with h | h <;> simp [h]
  have hwhite : ∀ x < img.w, ∀ y < img.h, img.pix x y = 255 →
      (preprocess K img).pix x y = 255 := by
    intro x hx y hy hv
    have hw : 0 < img.w := lt_of_le_of_lt (Nat.zero_le x) hx
    have hh : 0 < img.h := lt_of_le_of_lt (Nat.zero_le y) hy
    have hm : localMean K img x y ≤ 255 := localMean_le K hK img hb255 hw hh x y
    rw [preprocess_eq_threshold, adaptiveThreshold_pix]
    unfold threshPix
    rw [hv, if_pos (by omega)]
  refine ⟨hwhite, ?_, ?_⟩
  · rintro ⟨-, -, hpix⟩ x hx y hy h0
    have hpx := hpix x hx y hy
    rw [preprocess_eq_threshold, adaptiveThreshold_pix] at hpx
    unfold threshPix at hpx
    rw [h0] at hpx
    by_contra hlt
    push_neg at hlt
    rw [if_pos (by omega)] at hpx
    exact absurd hpx (by norm_num)
  · intro hmean
    refine ⟨rfl, rfl, ?_⟩
    intro x hx y hy
    rcases hbin x hx y hy with h0 | h255
    · have hge := hmean x hx y hy h0
      rw [preprocess_eq_threshold, adaptiveThreshold_pix]
      unfold threshPix
      rw [h0, if_neg (by omega)]
    · rw [hwhite x hx y hy h255, h255]

/-- Witness for claim C3 (amended) at the uniform kernel and the 1×1 white
raster. -/
theorem preprocess_binary_characterization_witness :
    (KernelOK uniformK ∧ IsBinary (whiteImage 1 1)) ∧
    ((∀ x < (whiteImage 1 1).w, ∀ y < (whiteImage 1 1).h,
        (whiteImage 1 1).pix x y = 255 →
          (preprocess uniformK (whiteImage 1 1)).pix x y = 255) ∧
      (ImgEq (preprocess uniformK (whiteImage 1 1)) (whiteImage 1 1) ↔
        ∀ x < (whiteImage 1 1).w, ∀ y < (whiteImage 1 1).h,
          (whiteImage 1 1).pix x y = 0 →
            2 ≤ localMean uniformK (whiteImage 1 1) x y)) :=
  ⟨⟨uniformK_ok, whiteImage_binary⟩,
    preprocess_binary_characterization uniformK uniformK_ok (whiteImage 1 1) whiteImage_binary⟩

end TextDetection

